import Mathlib

/-!
Verification development for the TSValidator runtime data-validation engine
(src/src/types.ts, src/src/validators.ts and the schema-builder module).

The embedding mirrors the TypeScript source:
* `Value` models the untyped JavaScript values the validators receive.
* `ValidationResult` keeps the TypeScript record shape `{success, value?, errors?}`
  with optional fields, so the success/errors invariant is a real theorem and
  not a consequence of the encoding.
* `Outcome` distinguishes a plain `ValidationResult` from the `Promise` that
  `custom` returns for an asynchronous predicate; reading `.success` / `.errors`
  / `.value` on a pending promise yields the JavaScript `undefined` (falsy /
  absent), exactly as property access on a `Promise` object does.
* `SchemaExpr` is the schema tree built by the builder surface; the
  `required` / `nullable` flags live on the node itself because the source
  mutates the receiver's flags in place (the latest call overwrites the
  stored message, which the functional update reproduces).
-/

namespace TSValidator

/-- JavaScript runtime values as far as the validators inspect them.
`vDate t` is a `Date` instance carrying its millisecond timestamp
(invalid `Date` instances are not modelled; no claim depends on them). -/
inductive Value where
  | vNull
  | vUndefined
  | vStr (s : String)
  | vNum (n : Int)
  | vBool (b : Bool)
  | vDate (t : Int)
  | vArr (items : List Value)
  | vObj (fields : List (String × Value))

/-- The JavaScript `typeof` operator restricted to the modelled values;
note `typeof null` and `typeof []` are both "object". -/
def jsTypeof : Value → String
  | .vNull => "object"
  | .vUndefined => "undefined"
  | .vStr _ => "string"
  | .vNum _ => "number"
  | .vBool _ => "boolean"
  | .vDate _ => "object"
  | .vArr _ => "object"
  | .vObj _ => "object"

/-- The JavaScript test `value === null`. -/
def Value.isNull : Value → Bool
  | .vNull => true
  | _ => false

/-- JavaScript property read `value[key]`: first matching key of a record,
numeric index of an array, `undefined` otherwise (absent keys read as
`undefined`, which is how the object composer sees missing fields). -/
def getProp (v : Value) (key : String) : Value :=
  match v with
  | .vObj fields => (List.lookup key fields).getD .vUndefined
  | .vArr items =>
    match key.toNat? with
    | some i => items.getD i .vUndefined
    | none => .vUndefined
  | _ => .vUndefined

/-- Type `ValidationError` from src/src/types.ts: a path of segments and a message. -/
structure ValidationError where
  path : List String
  message : String
deriving DecidableEq

/-- Type `ValidationResult` from src/src/types.ts, with the TypeScript optional
fields kept optional: `{success: boolean, value?: T, errors?: ValidationError[]}`. -/
structure ValidationResult where
  success : Bool
  value : Option Value
  errors : Option (List ValidationError)

/-- A success literal `{ success: true, value }` (the `errors` key is absent). -/
def okResult (v : Value) : ValidationResult := ⟨true, some v, none⟩

/-- A failure literal `{ success: false, errors }` (the `value` key is absent). -/
def failResult (errs : List ValidationError) : ValidationResult := ⟨false, none, some errs⟩

/-- The `messages` override table of `ValidationOptions` (the full key set of
the builder module's types file). -/
structure Messages where
  required : Option String := none
  type : Option String := none
  nullable : Option String := none
  custom : Option String := none
  email : Option String := none
  url : Option String := none
  minLength : Option String := none
  maxLength : Option String := none
  pattern : Option String := none

/-- Type `ValidationOptions` from src/src/types.ts. -/
structure ValidationOptions where
  messages : Option Messages := none

/-- Reading `options?.messages` where `options` itself may be absent. -/
def optMessages : Option ValidationOptions → Option Messages
  | some o => o.messages
  | none => none

/-- JavaScript `a || d` for `a` a possibly-absent string: an absent or empty
string is falsy and falls through to `d`. -/
def jsOrS (a : Option String) (d : String) : String :=
  match a with
  | some s => if s = "" then d else s
  | none => d

/-- What a synchronous-or-asynchronous custom predicate returns:
either a boolean, or a `Promise` that eventually resolves to a boolean. -/
inductive PredResult where
  | sync (b : Bool)
  | deferred (b : Bool)

/-- Is the predicate result a plain boolean (not a `Promise`)? -/
def PredResult.isSync : PredResult → Bool
  | .sync _ => true
  | .deferred _ => false

/-- What a `validate` call hands back: either a plain `ValidationResult`, or a
`Promise` of one (`custom` with an asynchronous predicate).  A pending
outcome records the `ValidationResult` it will eventually resolve to. -/
inductive Outcome where
  | ready (r : ValidationResult)
  | pending (eventual : ValidationResult)

/-- Reading `.success` on an outcome: on a `Promise` object the property is
`undefined`, which is falsy. -/
def Outcome.successField : Outcome → Bool
  | .ready r => r.success
  | .pending _ => false

/-- Reading `.errors` on an outcome: `undefined` on a `Promise` object. -/
def Outcome.errorsField : Outcome → Option (List ValidationError)
  | .ready r => r.errors
  | .pending _ => none

/-- Reading `.value` on an outcome: `undefined` on a `Promise` object. -/
def Outcome.valueField : Outcome → Option Value
  | .ready r => r.value
  | .pending _ => none

mutual
/-- One `BaseSchema` object: its `isRequired` / `isNullable` flags with the
stored per-flag messages, plus the wrapped validator (`core`).  The source
mutates these four fields in place when `required` / `nullable` are called. -/
inductive SchemaExpr where
  | mk (isRequired : Bool) (requiredMessage : Option String)
       (isNullable : Bool) (nullableMessage : Option String)
       (core : CoreExpr)

/-- The validator closure a `BaseSchema` was constructed with, one constructor
per builder.  The email / url / pattern regex tests and the `new Date(string)`
parse are single-condition leaf predicates the spec treats as external
collaborators, so they appear as abstract string predicates; everything else
is transcribed structurally. -/
inductive CoreExpr where
  | string (typeMessage : Option String)
  | number (typeMessage : Option String)
  | boolean (typeMessage : Option String)
  | date (parse : String → Option Int) (typeMessage invalidMessage : Option String)
  | email (test : String → Bool) (typeMessage : Option String)
  | url (test : String → Bool) (typeMessage : Option String)
  | minLength (len : Nat) (message : Option String)
  | maxLength (len : Nat) (message : Option String)
  | pattern (test : String → Bool) (message : Option String)
  | custom (pred : Value → PredResult) (message : Option String)
  | array (item : SchemaExpr) (typeMessage : Option String)
  | object (shape : List (String × SchemaExpr)) (typeMessage : Option String)
  | union (branches : List SchemaExpr) (message : Option String)
end

/-- Table `defaultMessages` (shared keys of the validators and builders tables). -/
def defaultMessages.required : String := "Value is required"

def defaultMessages.nullable : String := "Value cannot be null"

def defaultMessages.object : String := "Value must be an object"

def defaultMessages.union : String := "Value does not match any schema in the union"

def defaultMessages.string : String := "Value must be a string"

def defaultMessages.number : String := "Value must be a number"

def defaultMessages.boolean : String := "Value must be a boolean"

def defaultMessages.date : String := "Value must be a date or date string"

def defaultMessages.invalidDate : String := "Invalid date"

def defaultMessages.array : String := "Value must be an array"

def defaultMessages.email : String := "Value must be a valid email address"

def defaultMessages.url : String := "Value must be a valid URL"

def defaultMessages.pattern : String := "Value does not match the required pattern"

/-- The default minLength message with the min placeholder replaced by the bound. -/
def minLengthMessage (len : Nat) : String :=
  "Value must have at least " ++ toString len ++ " characters"

/-- The default maxLength message with the max placeholder replaced by the bound. -/
def maxLengthMessage (len : Nat) : String :=
  "Value must have at most " ++ toString len ++ " characters"

/-- The `validate.string` leaf validator body. -/
def stringCore (typeMessage : Option String) (v : Value)
    (opts : Option ValidationOptions) : Outcome :=
  match v with
  | .vStr s => .ready (okResult (.vStr s))
  | _ => .ready (failResult
      [⟨[], jsOrS ((optMessages opts).bind Messages.type)
        (jsOrS typeMessage defaultMessages.string)⟩])

/-- The `validate.number` leaf validator body. -/
def numberCore (typeMessage : Option String) (v : Value)
    (opts : Option ValidationOptions) : Outcome :=
  match v with
  | .vNum n => .ready (okResult (.vNum n))
  | _ => .ready (failResult
      [⟨[], jsOrS ((optMessages opts).bind Messages.type)
        (jsOrS typeMessage defaultMessages.number)⟩])

/-- The `validate.boolean` leaf validator body. -/
def booleanCore (typeMessage : Option String) (v : Value)
    (opts : Option ValidationOptions) : Outcome :=
  match v with
  | .vBool b => .ready (okResult (.vBool b))
  | _ => .ready (failResult
      [⟨[], jsOrS ((optMessages opts).bind Messages.type)
        (jsOrS typeMessage defaultMessages.boolean)⟩])

/-- The `validate.date` leaf validator body: accepts a `Date` instance or a
string; a string goes through `new Date(value)` (here the abstract `parse`)
and an unparsable one fails with the invalid-date message, which consults
only the construction-time message then the default. -/
def dateCore (parse : String → Option Int) (typeMessage invalidMessage : Option String)
    (v : Value) (opts : Option ValidationOptions) : Outcome :=
  match v with
  | .vDate t => .ready (okResult (.vDate t))
  | .vStr s =>
    match parse s with
    | some t => .ready (okResult (.vDate t))
    | none => .ready (failResult
        [⟨[], jsOrS invalidMessage defaultMessages.invalidDate⟩])
  | _ => .ready (failResult
      [⟨[], jsOrS ((optMessages opts).bind Messages.type)
        (jsOrS typeMessage defaultMessages.date)⟩])

/-- The `validate.email` leaf validator body. -/
def emailCore (test : String → Bool) (typeMessage : Option String) (v : Value)
    (opts : Option ValidationOptions) : Outcome :=
  match v with
  | .vStr s =>
    if test s then .ready (okResult (.vStr s))
    else .ready (failResult
      [⟨[], jsOrS ((optMessages opts).bind Messages.email)
        (jsOrS typeMessage defaultMessages.email)⟩])
  | _ => .ready (failResult
      [⟨[], jsOrS ((optMessages opts).bind Messages.email)
        (jsOrS typeMessage defaultMessages.email)⟩])

/-- The `validate.url` leaf validator body. -/
def urlCore (test : String → Bool) (typeMessage : Option String) (v : Value)
    (opts : Option ValidationOptions) : Outcome :=
  match v with
  | .vStr s =>
    if test s then .ready (okResult (.vStr s))
    else .ready (failResult
      [⟨[], jsOrS ((optMessages opts).bind Messages.url)
        (jsOrS typeMessage defaultMessages.url)⟩])
  | _ => .ready (failResult
      [⟨[], jsOrS ((optMessages opts).bind Messages.url)
        (jsOrS typeMessage defaultMessages.url)⟩])

/-- The `validate.minLength` leaf validator body; note the source reads
`message || options?.messages?.minLength || default`, i.e. the
construction-time message takes priority over the call-site override. -/
def minLengthCore (len : Nat) (message : Option String) (v : Value)
    (opts : Option ValidationOptions) : Outcome :=
  match v with
  | .vStr s =>
    if s.length < len then
      .ready (failResult
        [⟨[], jsOrS message (jsOrS ((optMessages opts).bind Messages.minLength)
          (minLengthMessage len))⟩])
    else .ready (okResult (.vStr s))
  | _ => .ready (failResult
      [⟨[], jsOrS message (jsOrS ((optMessages opts).bind Messages.minLength)
        (minLengthMessage len))⟩])

/-- The `validate.maxLength` leaf validator body (construction-time message
first, as in the source). -/
def maxLengthCore (len : Nat) (message : Option String) (v : Value)
    (opts : Option ValidationOptions) : Outcome :=
  match v with
  | .vStr s =>
    if s.length > len then
      .ready (failResult
        [⟨[], jsOrS message (jsOrS ((optMessages opts).bind Messages.maxLength)
          (maxLengthMessage len))⟩])
    else .ready (okResult (.vStr s))
  | _ => .ready (failResult
      [⟨[], jsOrS message (jsOrS ((optMessages opts).bind Messages.maxLength)
        (maxLengthMessage len))⟩])

/-- The `validate.pattern` leaf validator body (construction-time message
first, as in the source). -/
def patternCore (test : String → Bool) (message : Option String) (v : Value)
    (opts : Option ValidationOptions) : Outcome :=
  match v with
  | .vStr s =>
    if test s then .ready (okResult (.vStr s))
    else .ready (failResult
      [⟨[], jsOrS message (jsOrS ((optMessages opts).bind Messages.pattern)
        defaultMessages.pattern)⟩])
  | _ => .ready (failResult
      [⟨[], jsOrS message (jsOrS ((optMessages opts).bind Messages.pattern)
        defaultMessages.pattern)⟩])

/-- The validator `BaseSchema.custom` builds: run the predicate; a boolean
short-circuits, a `Promise` makes the whole call return a `Promise` of the
result (`result.then(...)`).  The message chain is
`message || options?.messages?.custom || 'Invalid value'`. -/
def customCore (pred : Value → PredResult) (message : Option String) (v : Value)
    (opts : Option ValidationOptions) : Outcome :=
  let failMsg := jsOrS message (jsOrS ((optMessages opts).bind Messages.custom)
    "Invalid value")
  match pred v with
  | .sync b =>
    if b then .ready (okResult v) else .ready (failResult [⟨[], failMsg⟩])
  | .deferred b =>
    .pending (if b then okResult v else failResult [⟨[], failMsg⟩])

/-- The `value.forEach((item, index) => ...)` loop of the array composer:
per item the child validator runs; a falsy `success` pushes the child's
errors (if any) with the stringified index prepended, a truthy one pushes
the child's `value`. -/
def arrayLoop (f : Value → Option ValidationOptions → Outcome)
    (opts : Option ValidationOptions) :
    List Value → Nat → List ValidationError × List Value
  | [], _ => ([], [])
  | item :: rest, i =>
    let o := f item opts
    let tail := arrayLoop f opts rest (i + 1)
    if o.successField then
      (tail.1, (o.valueField.getD .vUndefined) :: tail.2)
    else
      (((o.errorsField.getD []).map fun er =>
        { er with path := toString i :: er.path }) ++ tail.1, tail.2)

/-- The `validate.array` composer body. -/
def arrayCore (f : Value → Option ValidationOptions → Outcome)
    (typeMessage : Option String) (v : Value)
    (opts : Option ValidationOptions) : Outcome :=
  match v with
  | .vArr items =>
    let acc := arrayLoop f opts items 0
    if acc.1.isEmpty then .ready (okResult (.vArr acc.2))
    else .ready (failResult acc.1)
  | _ => .ready (failResult
      [⟨[], jsOrS ((optMessages opts).bind Messages.type)
        (jsOrS typeMessage defaultMessages.array)⟩])

/-- The `Object.entries(this.shape)` loop of the object composer: per field
the child validates the property read off the input (absent keys read as
`undefined`); a falsy `success` pushes the child's errors (if any) with the
field key prepended, a truthy one records the child's `value` under the key. -/
def objectLoop (fields : List (String × (Value → Option ValidationOptions → Outcome)))
    (v : Value) (opts : Option ValidationOptions) :
    List ValidationError × List (String × Value) :=
  match fields with
  | [] => ([], [])
  | (key, f) :: rest =>
    let o := f (getProp v key) opts
    let tail := objectLoop rest v opts
    if o.successField then
      (tail.1, (key, o.valueField.getD .vUndefined) :: tail.2)
    else
      (((o.errorsField.getD []).map fun er =>
        { er with path := key :: er.path }) ++ tail.1, tail.2)

/-- The `ObjectValidator` validator body: the shape guard is
`typeof value !== 'object' || value === null` (arrays pass it). -/
def objectCore (fields : List (String × (Value → Option ValidationOptions → Outcome)))
    (typeMessage : Option String) (v : Value)
    (opts : Option ValidationOptions) : Outcome :=
  if jsTypeof v ≠ "object" ∨ v.isNull then
    .ready (failResult
      [⟨[], jsOrS ((optMessages opts).bind Messages.type)
        (jsOrS typeMessage defaultMessages.object)⟩])
  else
    let acc := objectLoop fields v opts
    if acc.1.isEmpty then .ready (okResult (.vObj acc.2))
    else .ready (failResult acc.1)

/-- The `UnionValidator` loop: the first branch whose result has a truthy
`success` is returned as-is; otherwise the branch's errors (if any) are
appended, and after the last branch the failure list is the union's own
error followed by everything accumulated. -/
def unionLoop (message : Option String) (v : Value) (opts : Option ValidationOptions) :
    List (Value → Option ValidationOptions → Outcome) → List ValidationError → Outcome
  | [], acc => .ready (failResult
      (⟨[], jsOrS message defaultMessages.union⟩ :: acc))
  | f :: rest, acc =>
    let o := f v opts
    if o.successField then o
    else unionLoop message v opts rest (acc ++ (o.errorsField.getD []))

mutual
/-- Method `BaseSchema.validate`: the null gate (nullable flag), then the
undefined-and-required gate, then the wrapped validator. -/
def validateExpr : SchemaExpr → Value → Option ValidationOptions → Outcome
  | .mk rq rqm nl nlm core => fun v opts =>
    match v with
    | .vNull =>
      if nl then .ready (okResult .vNull)
      else .ready (failResult
        [⟨[], jsOrS ((optMessages opts).bind Messages.nullable)
          (jsOrS nlm defaultMessages.nullable)⟩])
    | .vUndefined =>
      if rq then .ready (failResult
        [⟨[], jsOrS ((optMessages opts).bind Messages.required)
          (jsOrS rqm defaultMessages.required)⟩])
      else runCore core .vUndefined opts
    | v' => runCore core v' opts

/-- Dispatch to the validator closure the schema was constructed with. -/
def runCore : CoreExpr → Value → Option ValidationOptions → Outcome
  | .string tm => stringCore tm
  | .number tm => numberCore tm
  | .boolean tm => booleanCore tm
  | .date parse tm im => dateCore parse tm im
  | .email test tm => emailCore test tm
  | .url test tm => urlCore test tm
  | .minLength len m => minLengthCore len m
  | .maxLength len m => maxLengthCore len m
  | .pattern test m => patternCore test m
  | .custom pred m => customCore pred m
  | .array item tm => arrayCore (validateExpr item) tm
  | .object shape tm => fun v opts => objectCore (fieldFuns shape) tm v opts
  | .union branches m => fun v opts => unionLoop m v opts (branchFuns branches) []

/-- The field validators of an object shape, in declaration order. -/
def fieldFuns : List (String × SchemaExpr) →
    List (String × (Value → Option ValidationOptions → Outcome))
  | [] => []
  | (key, s) :: rest => (key, validateExpr s) :: fieldFuns rest

/-- The branch validators of a union, in declaration order. -/
def branchFuns : List SchemaExpr → List (Value → Option ValidationOptions → Outcome)
  | [] => []
  | s :: rest => validateExpr s :: branchFuns rest
end

/-- Builder `validate.string(typeMessage?)`: a fresh `BaseSchema`, flags unset. -/
def string (typeMessage : Option String := none) : SchemaExpr :=
  .mk false none false none (.string typeMessage)

/-- Builder `validate.number(typeMessage?)`. -/
def number (typeMessage : Option String := none) : SchemaExpr :=
  .mk false none false none (.number typeMessage)

/-- Builder `validate.boolean(typeMessage?)`. -/
def boolean (typeMessage : Option String := none) : SchemaExpr :=
  .mk false none false none (.boolean typeMessage)

/-- Builder `validate.date(typeMessage?, invalidMessage?)`. -/
def date (parse : String → Option Int)
    (typeMessage invalidMessage : Option String := none) : SchemaExpr :=
  .mk false none false none (.date parse typeMessage invalidMessage)

/-- Builder `validate.email(typeMessage?)`. -/
def email (test : String → Bool) (typeMessage : Option String := none) : SchemaExpr :=
  .mk false none false none (.email test typeMessage)

/-- Builder `validate.url(typeMessage?)`. -/
def url (test : String → Bool) (typeMessage : Option String := none) : SchemaExpr :=
  .mk false none false none (.url test typeMessage)

/-- Builder `validate.minLength(length, message?)`. -/
def minLength (len : Nat) (message : Option String := none) : SchemaExpr :=
  .mk false none false none (.minLength len message)

/-- Builder `validate.maxLength(length, message?)`. -/
def maxLength (len : Nat) (message : Option String := none) : SchemaExpr :=
  .mk false none false none (.maxLength len message)

/-- Builder `validate.pattern(regex, message?)`. -/
def patternS (test : String → Bool) (message : Option String := none) : SchemaExpr :=
  .mk false none false none (.pattern test message)

/-- Builder `validate.array(schema, typeMessage?)`. -/
def array (item : SchemaExpr) (typeMessage : Option String := none) : SchemaExpr :=
  .mk false none false none (.array item typeMessage)

/-- Builder `validate.object(shape, typeMessage?)` (an `ObjectValidator`). -/
def object (shape : List (String × SchemaExpr))
    (typeMessage : Option String := none) : SchemaExpr :=
  .mk false none false none (.object shape typeMessage)

/-- Builder `validate.union(schemas, message?)` (a `UnionValidator`). -/
def union (branches : List SchemaExpr) (message : Option String := none) : SchemaExpr :=
  .mk false none false none (.union branches message)

/-- Method `required(message?)`: sets `isRequired` on the receiver and overwrites
`requiredMessage` with the argument (even when absent), returning the
receiver. -/
def SchemaExpr.required : SchemaExpr → Option String → SchemaExpr
  | .mk _ _ nl nlm core, message => .mk true message nl nlm core

/-- Method `nullable(message?)`: sets `isNullable` on the receiver and overwrites
`nullableMessage`, returning the receiver. -/
def SchemaExpr.nullable : SchemaExpr → Option String → SchemaExpr
  | .mk rq rqm _ _ core, message => .mk rq rqm true message core

/-- Method `custom(validationFn, message?)`: returns `new BaseSchema(...)` whose
validator runs only the predicate — the receiver schema (first argument) is
never consulted, exactly as in the source, where the method body does not
use `this`. -/
def SchemaExpr.custom (_receiver : SchemaExpr) (pred : Value → PredResult)
    (message : Option String) : SchemaExpr :=
  .mk false none false none (.custom pred message)

/-- The `isNullable` flag of a schema object. -/
def SchemaExpr.nullableFlag : SchemaExpr → Bool
  | .mk _ _ nl _ _ => nl

/-- Claim C5: `object({ name: string().required(), age: number() }).validate({ age: 30 })`
returns `{ success: false, errors: [{ path: ["name"], message: "Value is required" }] }`:
the absent `name` property reads as `undefined`, the required gate fires at the
leaf with an empty path, the object composer prepends the field key, and the
passing `age` field contributes nothing — exactly one error. -/
theorem c5_required_field_scenario :
    validateExpr
      (object [("name", (string none).required none), ("age", number none)] none)
      (.vObj [("age", .vNum 30)]) none =
    .ready (failResult [⟨["name"], defaultMessages.required⟩]) := rfl

/-- Claim C6: `nullable()` dominates.  First conjunct: any schema object whose
`isNullable` flag is set validates `null` to an immediate success carrying
`null`, whatever its core validator, required flag or stored messages, and
whatever options are passed.  The other conjuncts tie the flag to the API:
`nullable()` sets it and `required()` leaves it untouched, so every schema on
which `nullable()` has been called keeps the flag forever. -/
theorem c6_nullable_dominates :
    (∀ (rq : Bool) (rqm nlm : Option String) (core : CoreExpr)
        (opts : Option ValidationOptions),
      validateExpr (.mk rq rqm true nlm core) .vNull opts = .ready (okResult .vNull))
    ∧ (∀ (e : SchemaExpr) (m : Option String), (e.nullable m).nullableFlag = true)
    ∧ (∀ (e : SchemaExpr) (m : Option String),
        (e.required m).nullableFlag = e.nullableFlag) :=
  ⟨fun _ _ _ _ _ => rfl, fun e m => (by cases e; rfl), fun e m => (by cases e; rfl)⟩

/-- Claim C10: a union constructed with an empty branch list fails on every
non-null, non-undefined input, under any options, with exactly one error:
empty path and the default union message. -/
theorem c10_empty_union (v : Value) (opts : Option ValidationOptions)
    (hn : v ≠ .vNull) (hu : v ≠ .vUndefined) :
    validateExpr (union [] none) v opts =
      .ready (failResult [⟨[], defaultMessages.union⟩]) := by
  cases v with
  | vNull => exact absurd rfl hn
  | vUndefined => exact absurd rfl hu
  | vStr s => rfl
  | vNum n => rfl
  | vBool b => rfl
  | vDate t => rfl
  | vArr items => rfl
  | vObj fields => rfl

/-- Witness for C10 at the concrete input `true`. -/
theorem c10_witness :
    (Value.vBool true ≠ Value.vNull) ∧ (Value.vBool true ≠ Value.vUndefined) ∧
    validateExpr (union [] none) (.vBool true) none =
      .ready (failResult [⟨[], defaultMessages.union⟩]) :=
  ⟨fun h => (nomatch h), fun h => (nomatch h),
    c10_empty_union (.vBool true) none (fun h => (nomatch h)) (fun h => (nomatch h))⟩

/-- Counterexample to claim C3: the object composer's guard is
`typeof value !== 'object' || value === null`, and `typeof [] === 'object'`,
so an array input is NOT rejected — against an empty shape it even succeeds.
A `null` input never reaches the composer at all: the nullable gate fails it
first with "Value cannot be null", not "Value must be an object". -/
theorem c3_counterexample :
    validateExpr (object [] none) (.vArr []) none = .ready (okResult (.vObj []))
    ∧ (okResult (.vObj [])).success = true
    ∧ validateExpr (object [] none) .vNull none =
        .ready (failResult [⟨[], defaultMessages.nullable⟩])
    ∧ defaultMessages.nullable ≠ defaultMessages.object :=
  ⟨rfl, rfl, rfl, by decide⟩

/-- Claim C3 as amended: for every object schema and every input whose
JavaScript `typeof` is not "object" (strings, numbers, booleans, `undefined`),
validate fails immediately with exactly one error with empty path and the
type-mismatch message ("Value must be an object" absent overrides).  Inputs
with `typeof` "object" are exempt: `null` is failed earlier by the nullable
gate with the nullable message, and arrays pass the guard and are validated
field-wise against the shape. -/
theorem c3_object_type_guard (shape : List (String × SchemaExpr))
    (tm : Option String) (v : Value) (opts : Option ValidationOptions)
    (h : jsTypeof v ≠ "object") :
    validateExpr (object shape tm) v opts =
      .ready (failResult
        [⟨[], jsOrS ((optMessages opts).bind Messages.type)
          (jsOrS tm defaultMessages.object)⟩]) := by
  cases v with
  | vNull => exact absurd rfl h
  | vUndefined => rfl
  | vStr s => rfl
  | vNum n => rfl
  | vBool b => rfl
  | vDate t => exact absurd rfl h
  | vArr items => exact absurd rfl h
  | vObj fields => exact absurd rfl h

/-- Witness for the amended C3 at the concrete input `5`. -/
theorem c3_witness :
    jsTypeof (.vNum 5) ≠ "object" ∧
    validateExpr (object [] none) (.vNum 5) none =
      .ready (failResult [⟨[], defaultMessages.object⟩]) :=
  ⟨by decide, c3_object_type_guard [] none (.vNum 5) none (by decide)⟩

/-- Counterexample to claim C1: take `s = number()` and an always-true
predicate `p`.  On the string input "hi", `s` itself fails with its type
error, yet `s.custom(p).validate("hi")` succeeds — `custom` never evaluates
`s`'s own validation, so it does not "return s's failure unchanged". -/
theorem c1_counterexample :
    validateExpr (number none) (.vStr "hi") none =
      .ready (failResult [⟨[], defaultMessages.number⟩])
    ∧ validateExpr ((number none).custom (fun _ => .sync true) none)
        (.vStr "hi") none = .ready (okResult (.vStr "hi"))
    ∧ Outcome.ready (okResult (.vStr "hi")) ≠
        .ready (failResult [⟨[], defaultMessages.number⟩]) :=
  ⟨rfl, rfl, by simp [okResult, failResult]⟩

/-- Claim C1 as amended: `s.custom(p, m)` discards `s` entirely and returns a
fresh schema.  For every non-null, non-undefined input `v` and synchronous
predicate result, validate runs only the predicate: success with `v` when it
returns true, otherwise a single failure with empty path and the custom
message chain (construction message, else options custom override, else
"Invalid value").  The right-hand side does not mention `s`'s validation at
all. -/
theorem c1_custom_ignores_receiver (s : SchemaExpr) (pf : Value → PredResult)
    (m : Option String) (v : Value) (opts : Option ValidationOptions) (b : Bool)
    (hn : v ≠ .vNull) (hu : v ≠ .vUndefined) (hp : pf v = .sync b) :
    validateExpr (s.custom pf m) v opts =
      .ready (if b then okResult v
        else failResult
          [⟨[], jsOrS m (jsOrS ((optMessages opts).bind Messages.custom)
            "Invalid value")⟩]) := by
  cases b <;> cases v <;>
    first
    | exact absurd rfl hn
    | exact absurd rfl hu
    | simp [SchemaExpr.custom, validateExpr, runCore, customCore, hp]

/-- Witness for the amended C1: a false predicate on the number 7 yields the
single default custom error. -/
theorem c1_witness :
    ((fun _ => PredResult.sync false) (Value.vNum 7) = PredResult.sync false) ∧
    validateExpr ((string none).custom (fun _ => .sync false) none)
        (.vNum 7) none =
      .ready (failResult [⟨[], "Invalid value"⟩]) :=
  ⟨rfl, c1_custom_ignores_receiver (string none) (fun _ => .sync false) none
    (.vNum 7) none false (fun h => (nomatch h)) (fun h => (nomatch h)) rfl⟩

/-- Counterexample to claim C2: `minLength(3, "ctor")` on the too-short string
"ab" with a call-site override `messages.minLength = "site"` reports "ctor" —
the construction-time message beats the call-site override, the opposite of
the claimed priority order. -/
theorem c2_counterexample :
    validateExpr (minLength 3 (some "ctor")) (.vStr "ab")
        (some ⟨some { minLength := some "site" }⟩) =
      .ready (failResult [⟨[], "ctor"⟩])
    ∧ ("ctor" : String) ≠ "site" :=
  ⟨rfl, by decide⟩

/-- The claimed priority order: call-site override, else construction-time
message, else default. -/
def callsiteFirst (callsite ctor : Option String) (d : String) : String :=
  jsOrS callsite (jsOrS ctor d)

/-- The order the source actually uses for custom / minLength / maxLength /
pattern: construction-time message, else call-site override, else default. -/
def ctorFirst (ctor callsite : Option String) (d : String) : String :=
  jsOrS ctor (jsOrS callsite d)

/-- Claim C2 as amended, one conjunct per error kind, each on a failing input
with the construction-time message `mc` and the options table fully
quantified.  The call-site-first order holds for the type-mismatch leaves
(string, number, boolean, date, object, array), email, url, required and
nullable; but custom, minLength, maxLength and pattern resolve the
construction-time message FIRST; and the invalid-date and union no-match
messages never consult the options at all (construction-time, else default). -/
theorem c2_message_priority :
    (∀ (mc : Option String) (opts : Option ValidationOptions),
      validateExpr (string mc) (.vBool true) opts =
        .ready (failResult [⟨[], callsiteFirst ((optMessages opts).bind Messages.type)
          mc defaultMessages.string⟩]))
    ∧ (∀ (mc : Option String) (opts : Option ValidationOptions),
      validateExpr (number mc) (.vStr "x") opts =
        .ready (failResult [⟨[], callsiteFirst ((optMessages opts).bind Messages.type)
          mc defaultMessages.number⟩]))
    ∧ (∀ (mc : Option String) (opts : Option ValidationOptions),
      validateExpr (boolean mc) (.vNum 0) opts =
        .ready (failResult [⟨[], callsiteFirst ((optMessages opts).bind Messages.type)
          mc defaultMessages.boolean⟩]))
    ∧ (∀ (parse : String → Option Int) (mc mi : Option String)
        (opts : Option ValidationOptions),
      validateExpr (date parse mc mi) (.vBool true) opts =
        .ready (failResult [⟨[], callsiteFirst ((optMessages opts).bind Messages.type)
          mc defaultMessages.date⟩]))
    ∧ (∀ (tst : String → Bool) (mc : Option String) (opts : Option ValidationOptions),
      validateExpr (email tst mc) (.vNum 1) opts =
        .ready (failResult [⟨[], callsiteFirst ((optMessages opts).bind Messages.email)
          mc defaultMessages.email⟩]))
    ∧ (∀ (tst : String → Bool) (mc : Option String) (opts : Option ValidationOptions),
      validateExpr (url tst mc) (.vNum 1) opts =
        .ready (failResult [⟨[], callsiteFirst ((optMessages opts).bind Messages.url)
          mc defaultMessages.url⟩]))
    ∧ (∀ (shape : List (String × SchemaExpr)) (mc : Option String)
        (opts : Option ValidationOptions),
      validateExpr (object shape mc) (.vNum 1) opts =
        .ready (failResult [⟨[], callsiteFirst ((optMessages opts).bind Messages.type)
          mc defaultMessages.object⟩]))
    ∧ (∀ (item : SchemaExpr) (mc : Option String) (opts : Option ValidationOptions),
      validateExpr (array item mc) (.vNum 1) opts =
        .ready (failResult [⟨[], callsiteFirst ((optMessages opts).bind Messages.type)
          mc defaultMessages.array⟩]))
    ∧ (∀ (e : SchemaExpr) (mc : Option String) (opts : Option ValidationOptions),
      validateExpr (e.required mc) .vUndefined opts =
        .ready (failResult [⟨[], callsiteFirst ((optMessages opts).bind Messages.required)
          mc defaultMessages.required⟩]))
    ∧ (∀ (rq : Bool) (rqm mc : Option String) (core : CoreExpr)
        (opts : Option ValidationOptions),
      validateExpr (.mk rq rqm false mc core) .vNull opts =
        .ready (failResult [⟨[], callsiteFirst ((optMessages opts).bind Messages.nullable)
          mc defaultMessages.nullable⟩]))
    ∧ (∀ (s : SchemaExpr) (mc : Option String) (opts : Option ValidationOptions),
      validateExpr (s.custom (fun _ => .sync false) mc) (.vNum 1) opts =
        .ready (failResult [⟨[], ctorFirst mc ((optMessages opts).bind Messages.custom)
          "Invalid value"⟩]))
    ∧ (∀ (mc : Option String) (opts : Option ValidationOptions),
      validateExpr (minLength 3 mc) (.vStr "ab") opts =
        .ready (failResult [⟨[], ctorFirst mc ((optMessages opts).bind Messages.minLength)
          (minLengthMessage 3)⟩]))
    ∧ (∀ (mc : Option String) (opts : Option ValidationOptions),
      validateExpr (maxLength 1 mc) (.vStr "ab") opts =
        .ready (failResult [⟨[], ctorFirst mc ((optMessages opts).bind Messages.maxLength)
          (maxLengthMessage 1)⟩]))
    ∧ (∀ (tst : String → Bool) (mc : Option String) (opts : Option ValidationOptions),
      validateExpr (patternS tst mc) (.vNum 1) opts =
        .ready (failResult [⟨[], ctorFirst mc ((optMessages opts).bind Messages.pattern)
          defaultMessages.pattern⟩]))
    ∧ (∀ (mc mi : Option String) (opts : Option ValidationOptions),
      validateExpr (date (fun _ => none) mc mi) (.vStr "zz") opts =
        .ready (failResult [⟨[], jsOrS mi defaultMessages.invalidDate⟩]))
    ∧ (∀ (mc : Option String) (opts : Option ValidationOptions),
      validateExpr (union [] mc) (.vNum 1) opts =
        .ready (failResult [⟨[], jsOrS mc defaultMessages.union⟩])) := by
  refine ⟨fun mc opts => rfl, fun mc opts => rfl, fun mc opts => rfl,
    fun parse mc mi opts => rfl, fun tst mc opts => rfl, fun tst mc opts => rfl,
    fun shape mc opts => rfl, fun item mc opts => rfl, fun e mc opts => ?_,
    fun rq rqm mc core opts => rfl, fun s mc opts => rfl, fun mc opts => rfl,
    fun mc opts => rfl, fun tst mc opts => rfl, fun mc mi opts => rfl,
    fun mc opts => rfl⟩
  cases e; rfl

theorem branchFuns_eq_map (bs : List SchemaExpr) :
    branchFuns bs = bs.map validateExpr := by
  induction bs with
  | nil => rfl
  | cons s rest ih => simp [branchFuns, ih]

theorem unionLoop_all_fail (m : Option String) (v : Value)
    (opts : Option ValidationOptions)
    (fs : List (Value → Option ValidationOptions → Outcome))
    (acc : List ValidationError)
    (h : ∀ f ∈ fs, (f v opts).successField = false) :
    unionLoop m v opts fs acc =
      .ready (failResult (⟨[], jsOrS m defaultMessages.union⟩ ::
        (acc ++ fs.flatMap fun f => (f v opts).errorsField.getD []))) := by
  induction fs generalizing acc with
  | nil => simp [unionLoop]
  | cons f rest ih =>
    have hf := h f (List.mem_cons_self f rest)
    rw [unionLoop, hf]
    simp only [Bool.false_eq_true, if_false]
    rw [ih (acc ++ (f v opts).errorsField.getD [])
      (fun g hg => h g (List.mem_cons_of_mem f hg))]
    simp [List.append_assoc]

/-- Counterexample to claim C4: on the input `null`, every branch of
`union([string(), number()])` fails (each with its nullable error), but the
union's own nullable gate intercepts `null` before the branch loop ever runs,
so the result is a single "Value cannot be null" error — not the union
no-match error followed by the branches' errors. -/
theorem c4_counterexample :
    validateExpr (string none) .vNull none =
      .ready (failResult [⟨[], defaultMessages.nullable⟩])
    ∧ validateExpr (number none) .vNull none =
      .ready (failResult [⟨[], defaultMessages.nullable⟩])
    ∧ validateExpr (union [string none, number none] none) .vNull none =
      .ready (failResult [⟨[], defaultMessages.nullable⟩])
    ∧ ([⟨[], defaultMessages.nullable⟩] : List ValidationError) ≠
        [⟨[], defaultMessages.union⟩, ⟨[], defaultMessages.nullable⟩,
          ⟨[], defaultMessages.nullable⟩] :=
  ⟨rfl, rfl, rfl, by decide⟩

/-- Claim C4 as amended: for every union schema and every NON-NULL,
NON-UNDEFINED input on which every declared branch fails, validate returns a
failure whose error list is exactly the union's own error (empty path,
no-match message) followed by the concatenation of every branch's errors in
declaration order, with the branch errors' paths unmodified.  (On `null`, and
on `undefined` when `required()` was called on the union, the modifier gate
answers first and the branches never run.) -/
theorem c4_union_all_fail (branches : List SchemaExpr) (m : Option String)
    (v : Value) (opts : Option ValidationOptions)
    (hn : v ≠ .vNull) (hu : v ≠ .vUndefined)
    (h : ∀ b ∈ branches, (validateExpr b v opts).successField = false) :
    validateExpr (union branches m) v opts =
      .ready (failResult (⟨[], jsOrS m defaultMessages.union⟩ ::
        branches.flatMap fun b => (validateExpr b v opts).errorsField.getD [])) := by
  have hrun : validateExpr (union branches m) v opts =
      unionLoop m v opts (branchFuns branches) [] := by
    cases v with
    | vNull => exact absurd rfl hn
    | vUndefined => exact absurd rfl hu
    | vStr s => rfl
    | vNum n => rfl
    | vBool b => rfl
    | vDate t => rfl
    | vArr items => rfl
    | vObj fields => rfl
  rw [hrun, branchFuns_eq_map,
    unionLoop_all_fail m v opts (branches.map validateExpr) []
      (by intro f hf
          obtain ⟨b, hb, hfb⟩ := List.mem_map.mp hf
          exact hfb ▸ h b hb)]
  simp [List.flatMap_map, Function.comp]

/-- Witness for the amended C4: `union([string()])` on the boolean `true` —
the single branch fails with its type error, and the union reports its own
no-match error followed by that branch error, path untouched. -/
theorem c4_witness :
    (∀ b ∈ [string none], (validateExpr b (.vBool true) none).successField = false) ∧
    validateExpr (union [string none] none) (.vBool true) none =
      .ready (failResult [⟨[], defaultMessages.union⟩,
        ⟨[], defaultMessages.string⟩]) := by
  have hb : ∀ b ∈ [string none],
      (validateExpr b (.vBool true) none).successField = false := by
    intro b hb
    rw [List.mem_singleton.mp hb]
    rfl
  exact ⟨hb, c4_union_all_fail [string none] none (.vBool true) none
    (fun h => (nomatch h)) (fun h => (nomatch h)) hb⟩

theorem arrayLoop_spec (f : Value → Option ValidationOptions → Outcome)
    (opts : Option ValidationOptions) (items : List Value) (i : Nat) :
    arrayLoop f opts items i =
      ((List.enumFrom i items).flatMap fun p =>
          if (f p.2 opts).successField then []
          else ((f p.2 opts).errorsField.getD []).map fun er =>
            { er with path := toString p.1 :: er.path },
        (List.enumFrom i items).filterMap fun p =>
          if (f p.2 opts).successField then
            some ((f p.2 opts).valueField.getD .vUndefined)
          else none) := by
  induction items generalizing i with
  | nil => rfl
  | cons item rest ih =>
    rw [arrayLoop, ih (i + 1), List.enumFrom_cons]
    by_cases hs : (f item opts).successField
    · simp [hs]
    · simp [hs]

/-- Claim C7: the array composer validates items in index order under a
collect-all policy.  First conjunct: on any array input, its result is
determined by flattening, over the indexed items in order, each failing
item's errors with the stringified index prepended to their paths — failing
with that flat list when it is non-empty, succeeding with the passing items'
transformed values otherwise.  Second conjunct, the spec's scenario:
`array(number()).validate([1, "x", 3])` fails with exactly one error whose
path is `["1"]`. -/
theorem c7_array_collect_all :
    (∀ (item : SchemaExpr) (tm : Option String) (items : List Value)
        (opts : Option ValidationOptions),
      validateExpr (array item tm) (.vArr items) opts =
        (let errs := items.enum.flatMap fun p =>
            if (validateExpr item p.2 opts).successField then []
            else ((validateExpr item p.2 opts).errorsField.getD []).map fun er =>
              { er with path := toString p.1 :: er.path };
         if errs.isEmpty then
           .ready (okResult (.vArr (items.enum.filterMap fun p =>
             if (validateExpr item p.2 opts).successField then
               some ((validateExpr item p.2 opts).valueField.getD .vUndefined)
             else none)))
         else .ready (failResult errs)))
    ∧ validateExpr (array (number none) none) (.vArr [.vNum 1, .vStr "x", .vNum 3]) none =
        .ready (failResult [⟨["1"], defaultMessages.number⟩]) := by
  constructor
  · intro item tm items opts
    show arrayCore (validateExpr item) tm (.vArr items) opts = _
    rw [arrayCore, arrayLoop_spec]
    rfl
  · rfl

/-- Counterexample to claim C9: an asynchronous custom leaf whose predicate
resolves to TRUE, as the only branch of a union, on the matching input "x".
Were the pending child "treated as a truthy, errors-less success", the union
would return that success; instead the union FAILS with only its own
no-match error: reading `.success` on the pending promise yields `undefined`,
which is falsy, so the branch is treated as a failure contributing no errors. -/
theorem c9_counterexample :
    validateExpr
        (union [(string none).custom (fun _ => .deferred true) none] none)
        (.vStr "x") none =
      .ready (failResult [⟨[], defaultMessages.union⟩])
    ∧ (failResult [⟨[], defaultMessages.union⟩]).success = false :=
  ⟨rfl, rfl⟩

/-- Claim C9 as amended: composers do not recognize or wait on a deferred
child result — they read its `success` as falsy and its `errors` as absent,
treating the child as a FAILED validation that contributes no errors.
Conjunct 1: an asynchronous custom leaf itself returns the pending promise.
Conjunct 2: an object composer drops the field (neither error nor value) and
succeeds with a record missing the key.  Conjunct 3: an array composer drops
the item and succeeds with an empty result array.  Conjunct 4: a union skips
the branch and, with no other branch, fails with only its own no-match error
— all regardless of how the predicate eventually resolves. -/
theorem c9_composites_ignore_deferred :
    (∀ (s : SchemaExpr) (pf : Value → PredResult) (m : Option String) (v : Value)
        (opts : Option ValidationOptions) (b : Bool),
      v ≠ .vNull → v ≠ .vUndefined → pf v = .deferred b →
      validateExpr (s.custom pf m) v opts =
        .pending (if b then okResult v
          else failResult
            [⟨[], jsOrS m (jsOrS ((optMessages opts).bind Messages.custom)
              "Invalid value")⟩]))
    ∧ (∀ (e : SchemaExpr) (key : String) (tm : Option String)
        (fields : List (String × Value)) (opts : Option ValidationOptions)
        (r : ValidationResult),
      validateExpr e (getProp (.vObj fields) key) opts = .pending r →
      validateExpr (object [(key, e)] tm) (.vObj fields) opts =
        .ready (okResult (.vObj [])))
    ∧ (∀ (e : SchemaExpr) (x : Value) (tm : Option String)
        (opts : Option ValidationOptions) (r : ValidationResult),
      validateExpr e x opts = .pending r →
      validateExpr (array e tm) (.vArr [x]) opts =
        .ready (okResult (.vArr [])))
    ∧ (∀ (e : SchemaExpr) (v : Value) (m : Option String)
        (opts : Option ValidationOptions) (r : ValidationResult),
      v ≠ .vNull → v ≠ .vUndefined →
      validateExpr e v opts = .pending r →
      validateExpr (union [e] m) v opts =
        .ready (failResult [⟨[], jsOrS m defaultMessages.union⟩])) := by
  refine ⟨fun s pf m v opts b hn hu hp => ?_,
    fun e key tm fields opts r hp => ?_,
    fun e x tm opts r hp => ?_,
    fun e v m opts r hn hu hp => ?_⟩
  · cases b <;> cases v <;>
      first
      | exact absurd rfl hn
      | exact absurd rfl hu
      | simp [SchemaExpr.custom, validateExpr, runCore, customCore, hp]
  · show objectCore (fieldFuns [(key, e)]) tm (.vObj fields) opts = _
    simp [objectCore, jsTypeof, Value.isNull, fieldFuns, objectLoop, hp,
      Outcome.successField, Outcome.errorsField]
  · show arrayCore (validateExpr e) tm (.vArr [x]) opts = _
    simp [arrayCore, arrayLoop, hp, Outcome.successField, Outcome.errorsField]
  · have hrun : validateExpr (union [e] m) v opts =
        unionLoop m v opts (branchFuns [e]) [] := by
      cases v with
      | vNull => exact absurd rfl hn
      | vUndefined => exact absurd rfl hu
      | vStr s => rfl
      | vNum n => rfl
      | vBool b => rfl
      | vDate t => rfl
      | vArr items => rfl
      | vObj fields => rfl
    rw [hrun]
    simp [branchFuns, unionLoop, hp, Outcome.successField, Outcome.errorsField]

/-- Witness for the amended C9: the asynchronous always-true custom leaf on
the string "x", alone and nested in each composer. -/
theorem c9_witness :
    ((fun _ => PredResult.deferred true) (Value.vStr "x") = PredResult.deferred true) ∧
    validateExpr ((string none).custom (fun _ => .deferred true) none)
        (.vStr "x") none = .pending (okResult (.vStr "x")) ∧
    validateExpr
        (object [("a", (string none).custom (fun _ => .deferred true) none)] none)
        (.vObj [("a", .vStr "x")]) none = .ready (okResult (.vObj [])) ∧
    validateExpr (array ((string none).custom (fun _ => .deferred true) none) none)
        (.vArr [.vStr "x"]) none = .ready (okResult (.vArr [])) ∧
    validateExpr (union [(string none).custom (fun _ => .deferred true) none] none)
        (.vStr "x") none = .ready (failResult [⟨[], defaultMessages.union⟩]) :=
  ⟨rfl,
    c9_composites_ignore_deferred.1 (string none) (fun _ => .deferred true) none
      (.vStr "x") none true (fun h => (nomatch h)) (fun h => (nomatch h)) rfl,
    c9_composites_ignore_deferred.2.1
      ((string none).custom (fun _ => .deferred true) none) "a" none
      [("a", .vStr "x")] none (okResult (.vStr "x")) rfl,
    c9_composites_ignore_deferred.2.2.1
      ((string none).custom (fun _ => .deferred true) none) (.vStr "x") none
      none (okResult (.vStr "x")) rfl,
    c9_composites_ignore_deferred.2.2.2
      ((string none).custom (fun _ => .deferred true) none) (.vStr "x") none
      none (okResult (.vStr "x")) (fun h => (nomatch h)) (fun h => (nomatch h)) rfl⟩

mutual
/-- Every custom predicate reachable in the schema tree is synchronous. -/
def SyncOnly : SchemaExpr → Prop
  | .mk _ _ _ _ core => SyncCore core

def SyncCore : CoreExpr → Prop
  | .custom pred _ => ∀ v, (pred v).isSync = true
  | .array item _ => SyncOnly item
  | .object shape _ => SyncFields shape
  | .union branches _ => SyncBranches branches
  | _ => True

def SyncFields : List (String × SchemaExpr) → Prop
  | [] => True
  | (_, s) :: rest => SyncOnly s ∧ SyncFields rest

def SyncBranches : List SchemaExpr → Prop
  | [] => True
  | s :: rest => SyncOnly s ∧ SyncBranches rest
end

/-- The spec's `ValidationResult` invariant, as a boolean check on the record:
a truthy `success` comes with a present `value` and an absent `errors` key; a
falsy one with an absent `value` and a present, non-empty `errors` list. -/
def resultInv (r : ValidationResult) : Bool :=
  if r.success then r.value.isSome && r.errors.isNone
  else
    r.value.isNone &&
      (match r.errors with
        | some errs => !errs.isEmpty
        | none => false)

/-- The outcome is a plain (non-promise) result satisfying the invariant. -/
def Outcome.readyInv : Outcome → Bool
  | .ready r => resultInv r
  | .pending _ => false

theorem stringCore_inv (tm : Option String) (v : Value)
    (opts : Option ValidationOptions) : (stringCore tm v opts).readyInv = true := by
  cases v <;> rfl

theorem numberCore_inv (tm : Option String) (v : Value)
    (opts : Option ValidationOptions) : (numberCore tm v opts).readyInv = true := by
  cases v <;> rfl

theorem booleanCore_inv (tm : Option String) (v : Value)
    (opts : Option ValidationOptions) : (booleanCore tm v opts).readyInv = true := by
  cases v <;> rfl

theorem dateCore_inv (parse : String → Option Int) (tm im : Option String)
    (v : Value) (opts : Option ValidationOptions) :
    (dateCore parse tm im v opts).readyInv = true := by
  cases v with
  | vStr s => cases hp : parse s <;> simp [dateCore, hp, Outcome.readyInv, resultInv,
      okResult, failResult]
  | vNull => rfl
  | vUndefined => rfl
  | vNum n => rfl
  | vBool b => rfl
  | vDate t => rfl
  | vArr items => rfl
  | vObj fields => rfl

theorem emailCore_inv (test : String → Bool) (tm : Option String) (v : Value)
    (opts : Option ValidationOptions) : (emailCore test tm v opts).readyInv = true := by
  cases v <;>
    first
    | rfl
    | (rename_i s
       cases ht : test s <;>
         simp [emailCore, ht, Outcome.readyInv, resultInv, okResult, failResult])

theorem urlCore_inv (test : String → Bool) (tm : Option String) (v : Value)
    (opts : Option ValidationOptions) : (urlCore test tm v opts).readyInv = true := by
  cases v <;>
    first
    | rfl
    | (rename_i s
       cases ht : test s <;>
         simp [urlCore, ht, Outcome.readyInv, resultInv, okResult, failResult])

theorem minLengthCore_inv (len : Nat) (m : Option String) (v : Value)
    (opts : Option ValidationOptions) : (minLengthCore len m v opts).readyInv = true := by
  cases v <;>
    first
    | rfl
    | (rename_i s
       by_cases hl : s.length < len <;>
         simp [minLengthCore, hl, Outcome.readyInv, resultInv, okResult, failResult])

theorem maxLengthCore_inv (len : Nat) (m : Option String) (v : Value)
    (opts : Option ValidationOptions) : (maxLengthCore len m v opts).readyInv = true := by
  cases v <;>
    first
    | rfl
    | (rename_i s
       by_cases hl : s.length > len <;>
         simp [maxLengthCore, hl, Outcome.readyInv, resultInv, okResult, failResult])

theorem patternCore_inv (test : String → Bool) (m : Option String) (v : Value)
    (opts : Option ValidationOptions) : (patternCore test m v opts).readyInv = true := by
  cases v <;>
    first
    | rfl
    | (rename_i s
       cases ht : test s <;>
         simp [patternCore, ht, Outcome.readyInv, resultInv, okResult, failResult])

theorem customCore_sync_inv (pred : Value → PredResult) (m : Option String)
    (v : Value) (opts : Option ValidationOptions)
    (h : (pred v).isSync = true) : (customCore pred m v opts).readyInv = true := by
  cases hp : pred v with
  | sync b =>
    cases b <;>
      simp [customCore, hp, Outcome.readyInv, resultInv, okResult, failResult]
  | deferred b => rw [hp] at h; exact absurd h (by simp [PredResult.isSync])

/-- The object composer returns a plain invariant-respecting result whatever
its field validators do (a pending child is simply dropped). -/
theorem objectCore_inv
    (fields : List (String × (Value → Option ValidationOptions → Outcome)))
    (tm : Option String) (v : Value) (opts : Option ValidationOptions) :
    (objectCore fields tm v opts).readyInv = true := by
  simp only [objectCore]
  split
  · rfl
  · split
    · rfl
    · next h =>
      simp_all [Outcome.readyInv, resultInv, failResult]

/-- The array composer likewise. -/
theorem arrayCore_inv (f : Value → Option ValidationOptions → Outcome)
    (tm : Option String) (v : Value) (opts : Option ValidationOptions) :
    (arrayCore f tm v opts).readyInv = true := by
  cases v with
  | vArr items =>
    simp only [arrayCore]
    split
    · rfl
    · next h =>
      simp_all [Outcome.readyInv, resultInv, failResult]
  | vNull => rfl
  | vUndefined => rfl
  | vStr s => rfl
  | vNum n => rfl
  | vBool b => rfl
  | vDate t => rfl
  | vObj fs => rfl

/-- The union loop preserves the invariant when every branch result does
(a successful branch's result is returned verbatim, so its own invariant is
what the caller sees). -/
theorem unionLoop_inv (m : Option String) (v : Value)
    (opts : Option ValidationOptions)
    (fs : List (Value → Option ValidationOptions → Outcome))
    (acc : List ValidationError)
    (h : ∀ f ∈ fs, (f v opts).readyInv = true) :
    (unionLoop m v opts fs acc).readyInv = true := by
  induction fs generalizing acc with
  | nil => rfl
  | cons f rest ih =>
    rw [unionLoop]
    split
    · exact h f (List.mem_cons_self f rest)
    · exact ih _ (fun g hg => h g (List.mem_cons_of_mem f hg))

mutual
theorem syncInvValidate : ∀ (e : SchemaExpr), SyncOnly e →
    ∀ (v : Value) (opts : Option ValidationOptions),
    (validateExpr e v opts).readyInv = true
  | .mk rq rqm nl nlm core => fun h v opts => by
    have hc : ∀ v opts, (runCore core v opts).readyInv = true :=
      fun v opts => syncInvCore core h v opts
    cases v with
    | vNull => cases nl <;> rfl
    | vUndefined => cases rq with
      | true => rfl
      | false => exact hc .vUndefined opts
    | vStr s => exact hc (.vStr s) opts
    | vNum n => exact hc (.vNum n) opts
    | vBool b => exact hc (.vBool b) opts
    | vDate t => exact hc (.vDate t) opts
    | vArr items => exact hc (.vArr items) opts
    | vObj fields => exact hc (.vObj fields) opts

theorem syncInvCore : ∀ (c : CoreExpr), SyncCore c →
    ∀ (v : Value) (opts : Option ValidationOptions),
    (runCore c v opts).readyInv = true
  | .string tm => fun _ => stringCore_inv tm
  | .number tm => fun _ => numberCore_inv tm
  | .boolean tm => fun _ => booleanCore_inv tm
  | .date parse tm im => fun _ => dateCore_inv parse tm im
  | .email test tm => fun _ => emailCore_inv test tm
  | .url test tm => fun _ => urlCore_inv test tm
  | .minLength len m => fun _ => minLengthCore_inv len m
  | .maxLength len m => fun _ => maxLengthCore_inv len m
  | .pattern test m => fun _ => patternCore_inv test m
  | .custom pred m => fun h v opts => customCore_sync_inv pred m v opts (h v)
  | .array item tm => fun _ v opts => arrayCore_inv (validateExpr item) tm v opts
  | .object shape tm => fun _ v opts => objectCore_inv (fieldFuns shape) tm v opts
  | .union branches m => fun h v opts =>
    unionLoop_inv m v opts (branchFuns branches) []
      (fun f hf => syncInvBranches branches h f hf v opts)

theorem syncInvBranches : ∀ (bs : List SchemaExpr), SyncBranches bs →
    ∀ f ∈ branchFuns bs, ∀ (v : Value) (opts : Option ValidationOptions),
    (f v opts).readyInv = true
  | [] => fun _ f hf => absurd hf (List.not_mem_nil f)
  | s :: rest => fun h f hf v opts => by
    rcases List.mem_cons.mp hf with heq | hrest
    · exact heq ▸ syncInvValidate s h.1 v opts
    · exact syncInvBranches rest h.2 f hrest v opts
end

/-- Unpacking the boolean invariant into its two implications. -/
theorem resultInv_spec (r : ValidationResult) (h : resultInv r = true) :
    (r.success = true → r.value.isSome = true ∧ r.errors = none)
    ∧ (r.success = false → r.value = none ∧
        ∃ errs, r.errors = some errs ∧ errs ≠ []) := by
  obtain ⟨s, val, errs⟩ := r
  cases s with
  | true =>
    refine ⟨fun _ => ?_, fun hf => (by simp at hf)⟩
    simp only [resultInv, if_true] at h
    simp only [Bool.and_eq_true] at h
    exact ⟨h.1, Option.isNone_iff_eq_none.mp h.2⟩
  | false =>
    refine ⟨fun ht => (by simp at ht), fun _ => ?_⟩
    simp only [resultInv, Bool.false_eq_true, if_false, Bool.and_eq_true] at h
    refine ⟨Option.isNone_iff_eq_none.mp h.1, ?_⟩
    cases errs with
    | none => simp at h
    | some l =>
      refine ⟨l, rfl, ?_⟩
      have := h.2
      simp only [Bool.not_eq_eq_eq_not, Bool.not_true] at this
      exact List.ne_nil_of_length_pos (by
        cases l with
        | nil => simp at this
        | cons a t => simp)

/-- Claim C8: for every schema built from the builder surface whose custom
predicates are all synchronous, and every input and options, `validate`
returns a plain `ValidationResult` satisfying the invariant: a true
`success` comes with a present `value` and an absent `errors` key, and a
false `success` with an absent `value` and a present, non-empty error list. -/
theorem c8_result_invariant (e : SchemaExpr) (h : SyncOnly e) (v : Value)
    (opts : Option ValidationOptions) :
    ∃ r : ValidationResult, validateExpr e v opts = .ready r
      ∧ (r.success = true → r.value.isSome = true ∧ r.errors = none)
      ∧ (r.success = false → r.value = none ∧
          ∃ errs, r.errors = some errs ∧ errs ≠ []) := by
  have hinv := syncInvValidate e h v opts
  cases ho : validateExpr e v opts with
  | ready r =>
    rw [ho] at hinv
    exact ⟨r, rfl, resultInv_spec r hinv⟩
  | pending r =>
    rw [ho] at hinv
    exact absurd hinv (by simp [Outcome.readyInv])

/-- Witness for C8: the plain string leaf (trivially synchronous) on the
number 1. -/
theorem c8_witness :
    SyncOnly (string none) ∧
    ∃ r : ValidationResult,
      validateExpr (string none) (.vNum 1) none = .ready r
      ∧ (r.success = true → r.value.isSome = true ∧ r.errors = none)
      ∧ (r.success = false → r.value = none ∧
          ∃ errs, r.errors = some errs ∧ errs ≠ []) :=
  ⟨trivial, c8_result_invariant (string none) trivial (.vNum 1) none⟩

end TSValidator

